import Mathlib

/-!
Shallow embedding, in Lean, of the document ingestion and derivation
pipeline of the iara_trucks repository (a Flask + SQLAlchemy + Telegram
fleet-management application).

Python values are translated as follows: strings become `String` /
`List Char` (the ASCII fragment relevant to the data), `Decimal` and
JSON numbers become `ℚ`, `datetime.date` becomes a year/month/day
structure, SQLAlchemy rows become Lean structures, and the SQLAlchemy
session is modelled by a pair of database states (durable, current):
`flush` makes pending writes visible in `current`, `commit` copies
`current` into `durable`, `rollback` copies `durable` back into
`current`.  Fallible Python code returns `Option`; a `none` escaping a
whole pipeline run stands for an uncaught exception.
-/

namespace Iara

/-! ### Python string primitives (ASCII fragment)

Python `str.strip`, `str.upper`, `str.lower`, `str.replace` and the
regex classes `\d`, `\s` are modelled on the ASCII fragment that the
application data lives in. -/

def pyIsSpace (c : Char) : Bool :=
  c == ' ' || c == '\t' || c == '\n' || c == '\r' || c == '\x0b' || c == '\x0c'

def pyIsDigit (c : Char) : Bool :=
  decide (48 ≤ c.toNat) && decide (c.toNat ≤ 57)

def pyIsAlnum (c : Char) : Bool :=
  pyIsDigit c || (decide (65 ≤ c.toNat) && decide (c.toNat ≤ 90))
    || (decide (97 ≤ c.toNat) && decide (c.toNat ≤ 122))

def pyUpperChar (c : Char) : Char :=
  if 97 ≤ c.toNat ∧ c.toNat ≤ 122 then Char.ofNat (c.toNat - 32) else c

def pyLowerChar (c : Char) : Char :=
  if 65 ≤ c.toNat ∧ c.toNat ≤ 90 then Char.ofNat (c.toNat + 32) else c

def pyStrip (l : List Char) : List Char :=
  ((l.dropWhile pyIsSpace).reverse.dropWhile pyIsSpace).reverse

/-- Python `s.replace(x, "")` for a single character `x`. -/
def removeChar (x : Char) (l : List Char) : List Char :=
  l.filter (fun c => !(c == x))

/-- Python `s.replace(x, y)` for single characters. -/
def swapChar (x y : Char) (l : List Char) : List Char :=
  l.map (fun c => if c == x then y else c)

/-- Numeric value of a digit string (most significant first). -/
def natOfDigits (l : List Char) : ℕ :=
  l.foldl (fun a c => 10 * a + (c.toNat - 48)) 0

def digitChar (k : ℕ) : Char := Char.ofNat (48 + k)

/-- Two-digit zero-padded decimal rendering (`strftime` `%m` / `%d`). -/
def pad2 (n : ℕ) : List Char := [digitChar (n / 10 % 10), digitChar (n % 10)]

/-- Four-digit zero-padded decimal rendering (`strftime` `%Y`). -/
def pad4 (n : ℕ) : List Char :=
  [digitChar (n / 1000 % 10), digitChar (n / 100 % 10), digitChar (n / 10 % 10),
    digitChar (n % 10)]

/-! ### normalize_plate (app/services/extraction_service.py, lines 88-95) -/

/-- The cleanup chain `str(plate).strip().upper().replace(" ", "")`. -/
def plateClean (s : String) : List Char :=
  removeChar ' ' ((pyStrip s.data).map pyUpperChar)

/-- Source: `normalize_plate`.  Returns `None` for a falsy argument,
otherwise strips, uppercases, removes spaces, and keeps the result only
when it has at least 6 characters. -/
def normalize_plate (s : String) : Option String :=
  if s = "" then none
  else
    let c := plateClean s
    if 6 ≤ c.length then some (String.mk c) else none

/-! ### normalize_amount (app/services/extraction_service.py, lines 14-47)

The three regexes of `normalize_amount` are embedded as executable
matchers.  The grouped patterns `^\d{1,3}(\.\d{3})*,\d+$` (European) and
`^\d{1,3}(,\d{3})*\.\d+$` (Anglo) share one deterministic automaton
parametrised by the group separator `sep` and the decimal mark `dec`;
on these patterns the regex engine is deterministic, so the automaton
recognises exactly the same strings. -/

inductive GrpState where
  | start | d1 | d2 | d3 | f0 | f1 | bad
deriving DecidableEq, Repr

/-- One automaton step for the tail `(sep \d{3})* dec \d+` that follows
the 1-3 leading digits of a grouped number. -/
def grpStep (sep dec : Char) (st : GrpState) (c : Char) : GrpState :=
  match st with
  | .start => if c == sep then .d1 else if c == dec then .f0 else .bad
  | .d1 => if pyIsDigit c then .d2 else .bad
  | .d2 => if pyIsDigit c then .d3 else .bad
  | .d3 => if pyIsDigit c then .start else .bad
  | .f0 => if pyIsDigit c then .f1 else .bad
  | .f1 => if pyIsDigit c then .f1 else .bad
  | .bad => .bad

/-- Full match of `^\d{1,3}(sep\d{3})*dec\d+$`. -/
def isGrouped (sep dec : Char) (l : List Char) : Bool :=
  let ds := l.takeWhile pyIsDigit
  decide (1 ≤ ds.length) && decide (ds.length ≤ 3) &&
    ((l.drop ds.length).foldl (grpStep sep dec) GrpState.start == GrpState.f1)

/-- Coefficient-and-exponent tail of a Python `Decimal` literal after an
optional sign: `digits [. digits] [ (e|E) [sign] digits ]`.  `Infinity`
and `NaN` forms have no counterpart in `ℚ` and do not occur in the
pipeline data (the amount regexes strip every letter first). -/
def pyExpApply (base : ℚ) (ex : List Char) : Option ℚ :=
  let (sgn, digs) : ℤ × List Char :=
    match ex with
    | '-' :: r => (-1, r)
    | '+' :: r => (1, r)
    | r => (1, r)
  if digs.isEmpty || !(digs.all pyIsDigit) then none
  else some (base * (10 : ℚ) ^ ((sgn * (natOfDigits digs : ℤ))))

def pyDecimalUnsigned (l : List Char) : Option ℚ :=
  let ip := l.takeWhile pyIsDigit
  match l.drop ip.length with
  | [] => if ip.isEmpty then none else some ((natOfDigits ip : ℚ))
  | '.' :: rest =>
      let fp := rest.takeWhile pyIsDigit
      if ip.isEmpty && fp.isEmpty then none
      else
        let v : ℚ := (natOfDigits ip : ℚ) + (natOfDigits fp : ℚ) / 10 ^ fp.length
        match rest.drop fp.length with
        | [] => some v
        | 'e' :: ex => pyExpApply v ex
        | 'E' :: ex => pyExpApply v ex
        | _ => none
  | 'e' :: ex => if ip.isEmpty then none else pyExpApply (natOfDigits ip : ℚ) ex
  | 'E' :: ex => if ip.isEmpty then none else pyExpApply (natOfDigits ip : ℚ) ex
  | _ => none

/-- Python `Decimal(s)` on a finite numeric literal; `none` models the
`InvalidOperation` raised on anything else. -/
def pyDecimalOfChars (l : List Char) : Option ℚ :=
  if l.head? = some '-' then (pyDecimalUnsigned l.tail).map (fun q => -q)
  else if l.head? = some '+' then pyDecimalUnsigned l.tail
  else pyDecimalUnsigned l

/-- Characters kept by `re.sub(r"[^\d,.\-]", "", s)`. -/
def amountKeep (c : Char) : Bool :=
  pyIsDigit c || c == ',' || c == '.' || c == '-'

/-- Source: `normalize_amount` on a string argument.  Strips, removes
non-numeric characters, then classifies European grouping, Anglo
grouping, bare comma-decimal, else parses as-is. -/
def normalizeAmountChars (l0 : List Char) : Option ℚ :=
  let s0 := pyStrip l0
  if s0.isEmpty then none
  else
    let s := s0.filter amountKeep
    if isGrouped '.' ',' s then pyDecimalOfChars (swapChar ',' '.' (removeChar '.' s))
    else if isGrouped ',' '.' s then pyDecimalOfChars (removeChar ',' s)
    else if s.contains ',' && !(s.contains '.') then pyDecimalOfChars (swapChar ',' '.' s)
    else pyDecimalOfChars s

def normalize_amount (s : String) : Option ℚ :=
  normalizeAmountChars s.data

/-! Specification-side reference for C7, modelled from the spec text:
a grouped amount is read by dropping the group separators and reading
the decimal-mark-separated parts as integer and fraction. -/

/-- Value of a string matching the grouped pattern: integer part with
separators removed, plus the fraction after the decimal mark. -/
def groupedValue (sep dec : Char) (l : List Char) : ℚ :=
  let ip := l.takeWhile (fun c => !(c == dec))
  let fp := l.drop (ip.length + 1)
  (natOfDigits (removeChar sep ip) : ℚ) + (natOfDigits fp : ℚ) / 10 ^ fp.length

/-- Spec-side `parseEuropean` (e.g. `1.234,56` to `1234.56`). -/
def parseEuropean (l : List Char) : ℚ := groupedValue '.' ',' l

/-- Spec-side `parseAnglo` (e.g. `1,234.56` to `1234.56`). -/
def parseAnglo (l : List Char) : ℚ := groupedValue ',' '.' l

/-- Modelled from the spec: strips currency symbols and whitespace, then
classifies by regex priority (European first, then Anglo, then bare
comma-decimal, else parse as-is), `null` on unparseable input. -/
def normalizeAmountSpec (s : String) : Option ℚ :=
  let c0 := pyStrip s.data
  if c0.isEmpty then none
  else
    let c := c0.filter amountKeep
    if isGrouped '.' ',' c then some (parseEuropean c)
    else if isGrouped ',' '.' c then some (parseAnglo c)
    else if c.contains ',' && !(c.contains '.') then pyDecimalOfChars (swapChar ',' '.' c)
    else pyDecimalOfChars c

/-! ### normalize_date (app/services/extraction_service.py, lines 50-85)

`datetime.strptime` on the purely numeric formats used by the source
reduces to: split the string on the (escaped) separator, check each
component against the format-class regex (`%Y` exactly 4 digits, `%y`
exactly 2, `%m` in 1..12 with at most 2 digits, `%d` in 1..31 with at
most 2 digits), then validate the real calendar date exactly as the
`datetime` constructor does (month lengths, proleptic Gregorian leap
years, years 1..9999).  `strftime("%Y-%m-%d")` is rendered zero-padded
as documented (the unpadded output some libc builds produce for years
below 1000 is not modelled). -/

structure PyDate where
  year : ℕ
  month : ℕ
  day : ℕ
deriving DecidableEq, Repr

def isLeapYear (y : ℕ) : Bool :=
  (y % 4 == 0 && !(y % 100 == 0)) || y % 400 == 0

def daysInMonth (y m : ℕ) : ℕ :=
  if m = 2 then (if isLeapYear y then 29 else 28)
  else if m = 4 ∨ m = 6 ∨ m = 9 ∨ m = 11 then 30
  else 31

def validDate (y m d : ℕ) : Bool :=
  decide (1 ≤ y) && decide (y ≤ 9999) && decide (1 ≤ m) && decide (m ≤ 12) &&
    decide (1 ≤ d) && decide (d ≤ daysInMonth y m)

def splitOnChar (sep : Char) : List Char → List (List Char)
  | [] => [[]]
  | c :: r =>
    match splitOnChar sep r with
    | [] => [[]]
    | h :: t => if c == sep then [] :: h :: t else (c :: h) :: t

def yearOk4 (p : List Char) : Bool := p.all pyIsDigit && decide (p.length = 4)

def yearOk2 (p : List Char) : Bool := p.all pyIsDigit && decide (p.length = 2)

/-- Python two-digit year pivot: 00-68 map to 2000-2068, 69-99 to
1969-1999. -/
def y2val (p : List Char) : ℕ :=
  let v := natOfDigits p
  if v ≤ 68 then 2000 + v else 1900 + v

def monthOk (p : List Char) : Bool :=
  p.all pyIsDigit && (decide (p.length = 1) || decide (p.length = 2)) &&
    decide (1 ≤ natOfDigits p) && decide (natOfDigits p ≤ 12)

def dayOk (p : List Char) : Bool :=
  p.all pyIsDigit && (decide (p.length = 1) || decide (p.length = 2)) &&
    decide (1 ≤ natOfDigits p) && decide (natOfDigits p ≤ 31)

/-- One `datetime.strptime(s, fmt).date()` attempt for the numeric
formats of the source; `dmy` selects day-month-year component order,
`y2` selects a two-digit year. -/
def tryFormat (sep : Char) (dmy : Bool) (y2 : Bool) (l : List Char) : Option PyDate :=
  match splitOnChar sep l with
  | [a, b, c] =>
    let yp := if dmy then c else a
    let mp := b
    let dp := if dmy then a else c
    if (if y2 then yearOk2 yp else yearOk4 yp) && monthOk mp && dayOk dp then
      let y := if y2 then y2val yp else natOfDigits yp
      let m := natOfDigits mp
      let d := natOfDigits dp
      if validDate y m d then some ⟨y, m, d⟩ else none
    else none
  | _ => none

/-- `dt.strftime("%Y-%m-%d")`. -/
def fmtYMD (dt : PyDate) : List Char :=
  pad4 dt.year ++ '-' :: (pad2 dt.month ++ '-' :: pad2 dt.day)

/-- The ordered format list of `normalize_date`. -/
def tryAllFormats (l : List Char) : Option PyDate :=
  (tryFormat '-' false false l).orElse fun _ =>
  (tryFormat '/' true false l).orElse fun _ =>
  (tryFormat '-' true false l).orElse fun _ =>
  (tryFormat '.' true false l).orElse fun _ =>
  (tryFormat '/' true true l).orElse fun _ =>
  (tryFormat '-' true true l)

/-- Match of `\d{4}-\d{2}-\d{2}` against the first 10 characters. -/
def shapeYMD : List Char → Bool
  | [a, b, c, d, e, f, g, h, i, j] =>
    pyIsDigit a && pyIsDigit b && pyIsDigit c && pyIsDigit d && e == '-' &&
      pyIsDigit f && pyIsDigit g && h == '-' && pyIsDigit i && pyIsDigit j
  | _ => false

/-- `re.search(r"(\d{4})-(\d{2})-(\d{2})", s)` returning `group(0)`. -/
def searchYMD : List Char → Option (List Char)
  | [] => none
  | c :: r => if shapeYMD ((c :: r).take 10) then some ((c :: r).take 10) else searchYMD r

def sepDMY (c : Char) : Bool := c == '/' || c == '.' || c == '-'

/-- Match of `(\d{2})[/.-](\d{2})[/.-](\d{4})` against the first 10
characters, rearranged to `year-month-day` as the source does. -/
def shapeDMY : List Char → Option (List Char)
  | [a, b, s, c, d, t, e, f, g, h] =>
    if pyIsDigit a && pyIsDigit b && sepDMY s && pyIsDigit c && pyIsDigit d && sepDMY t
        && pyIsDigit e && pyIsDigit f && pyIsDigit g && pyIsDigit h then
      some [e, f, g, h, '-', c, d, '-', a, b]
    else none
  | _ => none

def searchDMY : List Char → Option (List Char)
  | [] => none
  | c :: r =>
    match shapeDMY ((c :: r).take 10) with
    | some o => some o
    | none => searchDMY r

/-- Source: `normalize_date`.  Tries the ordered `strptime` formats,
then falls back to the two regex searches. -/
def normalizeDateChars (l0 : List Char) : Option (List Char) :=
  let s := pyStrip l0
  if s.isEmpty then none
  else
    match tryAllFormats s with
    | some dt => some (fmtYMD dt)
    | none =>
      match searchYMD s with
      | some m => some m
      | none => searchDMY s

def normalize_date (s : String) : Option String :=
  (normalizeDateChars s.data).map String.mk

/-! ### Python scalar values and truthiness -/

/-- A raw JSON scalar from the vision-model output: a number or a
string.  Absent keys and JSON nulls are both `none` at the field level
(the source treats them identically through `dict.get`). -/
inductive PyV where
  | vnum (q : ℚ)
  | vstr (s : String)
deriving DecidableEq, Repr

def pyvTruthy : PyV → Bool
  | .vnum q => decide (q ≠ 0)
  | .vstr s => decide (s ≠ "")

def optPyvTruthy : Option PyV → Bool
  | some v => pyvTruthy v
  | none => false

def optStrTruthy : Option String → Bool
  | some s => decide (s ≠ "")
  | none => false

def optQTruthy : Option ℚ → Bool
  | some q => decide (q ≠ 0)
  | none => false

def optNatTruthy : Option ℕ → Bool
  | some n => decide (n ≠ 0)
  | none => false

/-- Python `a or b` (returns `b` unchanged when `a` is falsy). -/
def pyOrStr (a b : Option String) : Option String :=
  if optStrTruthy a then a else b

def pyOrPyv (a b : Option PyV) : Option PyV :=
  if optPyvTruthy a then a else b

/-- `Decimal(str(value))` of `normalize_amount` for numeric arguments,
else the string path. -/
def normalize_amount_v : PyV → Option ℚ
  | .vnum q => some q
  | .vstr s => normalize_amount s

/-- Truncation toward zero, as Python `int()` on a number. -/
def truncToInt (q : ℚ) : ℤ :=
  if 0 ≤ q then ⌊q⌋ else ⌈q⌉

/-- Digit run accepted by Python `int(str)`: digits with single
underscores strictly between digits. -/
def pyIntDigits (l : List Char) : Bool :=
  !l.isEmpty && l.all (fun c => pyIsDigit c || c == '_')
    && !(l.head? == some '_') && !(l.getLast? == some '_')
    && (l.zip l.tail).all (fun p => !(p.1 == '_' && p.2 == '_'))

/-- Python `int(s)` on a string: optional sign and digits, surrounding
whitespace allowed, `ValueError` (`none`) otherwise. -/
def pyIntOfStr (s : String) : Option ℤ :=
  match pyStrip s.data with
  | '-' :: r => if pyIntDigits r then some (-(natOfDigits (r.filter pyIsDigit) : ℤ)) else none
  | '+' :: r => if pyIntDigits r then some ((natOfDigits (r.filter pyIsDigit) : ℤ)) else none
  | r => if pyIntDigits r then some ((natOfDigits (r.filter pyIsDigit) : ℤ)) else none

/-- Python `int(x)` for a JSON scalar. -/
def pyIntOf : PyV → Option ℤ
  | .vnum q => some (truncToInt q)
  | .vstr s => pyIntOfStr s

/-- Python `float(x)` on the finite numeric literals relevant here
(same literal grammar as `Decimal` plus surrounding whitespace;
infinities and `nan` yield no usable odometer value either way). -/
def pyFloatOf : PyV → Option ℚ
  | .vnum q => some q
  | .vstr s => pyDecimalOfChars (pyStrip s.data)

/-! ### Extraction records and validate_and_enrich
(app/services/extraction_service.py, lines 98-145) -/

structure RawAmounts where
  subtotal : Option PyV := none
  tax : Option PyV := none
  total : Option PyV := none
  currency : Option String := none
deriving DecidableEq, Repr

structure RawFuel where
  liters : Option PyV := none
  price_per_liter : Option PyV := none
  total_amount : Option PyV := none
  fuel_type : Option String := none
  odometer_km : Option PyV := none
deriving DecidableEq, Repr

/-- Raw extraction payload as produced by the vision model. -/
structure RawExtract where
  doc_type : Option String := none
  vehicle_identifier_guess : Option String := none
  vendor_name : Option String := none
  vendor : Option String := none
  date_issue : Option String := none
  date_due : Option String := none
  amounts : RawAmounts := {}
  fuel : RawFuel := {}
  odometer_km : Option PyV := none
deriving DecidableEq, Repr

structure CAmounts where
  subtotal : Option ℚ
  tax : Option ℚ
  total : Option ℚ
  currency : Option String
deriving DecidableEq, Repr

/-- Fuel sub-record after enrichment.  `total_amount` is left as the
raw scalar by the source (the normalization loop touches only `liters`
and `price_per_liter`); a computed liters-times-price total is stored
as a number. -/
structure CFuel where
  liters : Option ℚ
  price_per_liter : Option ℚ
  total_amount : Option PyV
  fuel_type : Option String
  odometer_km : Option PyV
deriving DecidableEq, Repr

/-- Canonical extraction record produced by `validate_and_enrich`. -/
structure CExtract where
  doc_type : Option String
  vehicle_identifier_guess : Option String
  vendor_name : Option String
  vendor : Option String
  date_issue : Option String
  date_due : Option String
  amounts : CAmounts
  fuel : CFuel
  odometer_km : Option ℤ
deriving DecidableEq, Repr

/-- Source: `validate_and_enrich(extracted, vehicle_plate)`. -/
def validate_and_enrich (e : RawExtract) (vehicle_plate : Option String) : CExtract :=
  let date_issue := match e.date_issue with
    | some s => if s = "" then some s else normalize_date s
    | none => none
  let date_due := match e.date_due with
    | some s => if s = "" then some s else normalize_date s
    | none => none
  let amounts : CAmounts :=
    { subtotal := e.amounts.subtotal.bind normalize_amount_v
      tax := e.amounts.tax.bind normalize_amount_v
      total := e.amounts.total.bind normalize_amount_v
      currency := e.amounts.currency }
  let liters := e.fuel.liters.bind normalize_amount_v
  let price := e.fuel.price_per_liter.bind normalize_amount_v
  let fuel_total :=
    if e.fuel.total_amount = none ∧ optQTruthy liters ∧ optQTruthy price then
      some (PyV.vnum (liters.getD 0 * price.getD 0))
    else e.fuel.total_amount
  let odometer : Option ℤ := match e.odometer_km with
    | some v => (pyFloatOf v).map truncToInt
    | none => none
  let guess :=
    if optStrTruthy vehicle_plate then normalize_plate (vehicle_plate.getD "")
    else if optStrTruthy e.vehicle_identifier_guess then
      normalize_plate (e.vehicle_identifier_guess.getD "")
    else e.vehicle_identifier_guess
  { doc_type := e.doc_type
    vehicle_identifier_guess := guess
    vendor_name := e.vendor_name
    vendor := e.vendor
    date_issue := date_issue
    date_due := date_due
    amounts := amounts
    fuel := { liters := liters, price_per_liter := price, total_amount := fuel_total,
              fuel_type := e.fuel.fuel_type, odometer_km := e.fuel.odometer_km }
    odometer_km := odometer }

/-! ### Persistent rows (app/models.py plus the migration scripts that
add `subtotal/tax` on entries, `kilometers` on fuel entries and the
pending fields on sessions) and the session/transaction model -/

structure Vehicle where
  id : ℕ
  plate : String
  active : Bool
deriving DecidableEq, Repr

/-- One `Document` row.  `extracted_json` and `processed_at` carry no
claim-relevant content beyond being set, so they are tracked as flags. -/
structure Doc where
  id : ℕ
  vehicle_id : Option ℕ
  user_id : Option ℕ
  doc_type : Option String
  file_path : String
  status : String
  error_message : Option String
  vendor : Option String
  issue_date : Option PyDate
  due_date : Option PyDate
  subtotal_amount : Option ℚ
  tax_amount : Option ℚ
  total_amount : Option ℚ
  currency : String
  odometer_km : Option ℤ
  extracted_json_set : Bool
  processed_at_set : Bool
deriving DecidableEq, Repr

structure FuelEntry where
  id : ℕ
  document_id : Option ℕ
  vehicle_id : ℕ
  date : PyDate
  liters : ℚ
  price_per_liter : ℚ
  subtotal_amount : Option ℚ
  tax_amount : Option ℚ
  total_amount : ℚ
  station : Option String
  fuel_type : Option String
  kilometers : Option ℤ
deriving DecidableEq, Repr

structure ExpenseEntry where
  document_id : Option ℕ
  vehicle_id : ℕ
  date : PyDate
  category : String
  subtotal_amount : Option ℚ
  tax_amount : Option ℚ
  total_amount : ℚ
  vendor : Option String
deriving DecidableEq, Repr

structure Reminder where
  vehicle_id : ℕ
  kind : String
  due_date : PyDate
  status : String
  document_id : Option ℕ
deriving DecidableEq, Repr

structure DB where
  vehicles : List Vehicle
  documents : List Doc
  fuel_entries : List FuelEntry
  expense_entries : List ExpenseEntry
  reminders : List Reminder
  nextVehicleId : ℕ
  nextFuelEntryId : ℕ
deriving DecidableEq, Repr

/-- SQLAlchemy session: `durable` is what past commits persisted,
`current` is what queries inside the open transaction observe.
`commit` copies `current` to `durable`; `rollback` copies `durable`
back over `current`. -/
structure SState where
  durable : DB
  current : DB
deriving DecidableEq, Repr

def findDoc (db : DB) (id : ℕ) : Option Doc :=
  db.documents.find? (fun d => d.id == id)

def findVehicleById (db : DB) (id : ℕ) : Option Vehicle :=
  db.vehicles.find? (fun v => v.id == id)

def findVehicleByPlate (db : DB) (p : String) : Option Vehicle :=
  db.vehicles.find? (fun v => v.plate == p)

/-- Mutation of the ORM `Document` object, visible to later reads. -/
def replaceDoc (db : DB) (d : Doc) : DB :=
  { db with documents := db.documents.map (fun x => if x.id == d.id then d else x) }

/-- `Vehicle(plate=..., active=True)` added to the session and flushed
(the flush assigns the next id). -/
def addVehicle (db : DB) (p : String) : DB :=
  { db with
      vehicles := db.vehicles ++ [⟨db.nextVehicleId, p, true⟩]
      nextVehicleId := db.nextVehicleId + 1 }

/-! ### Tax reconciliation
(app/services/document_processor.py, lines 178-215, factored out of
`process_document` as a function of the document type and the three
canonical amounts) -/

/-- Source lines 178-215: total fallback from `subtotal + tax`, then
the per-type rules.  Returns `(subtotal, tax, total)`.  Note that the
per-type rules fire on a truthy (non-null and nonzero) total, matching
the Python `if doc.total_amount and ...` truthiness tests. -/
def reconcile_taxes (doc_type : Option String) (sub tax tot0 : Option ℚ) :
    Option ℚ × Option ℚ × Option ℚ :=
  let tot : Option ℚ :=
    match tot0 with
    | some t => some t
    | none =>
      match sub, tax with
      | some s, some x => some (s + x)
      | _, _ => none
  if doc_type = some "fuel_ticket" then
    match tot with
    | some t =>
      if t ≠ 0 ∧ tax = none then
        match sub with
        | none => (some (t / 1.21), some (t - t / 1.21), some t)
        | some s => (some s, some (t - s), some t)
      else (sub, tax, some t)
    | none => (sub, tax, none)
  else
    match tot with
    | some t =>
      if t ≠ 0 ∧ sub = none ∧ tax = none then (some t, some 0, some t)
      else (sub, tax, some t)
    | none => (sub, tax, none)

/-- `DOC_TYPE_TO_EXPENSE_CATEGORY.get(doc_type)`. -/
def docTypeToExpenseCategory : Option String → Option String
  | some "invoice" => some "other"
  | some "delivery_note" => some "other"
  | some "insurance_policy" => some "insurance"
  | some "itv" => some "itv"
  | some "tachograph" => some "itv"
  | some "workshop_invoice" => some "workshop"
  | some "tires_invoice" => some "tires"
  | _ => none

/-- `doc.issue_date` / `doc.due_date` assignment of `process_document`
(lines 119-146): re-normalize, then `strptime("%Y-%m-%d").date()`. -/
def docDateOf (v : Option String) : Option PyDate :=
  match v with
  | some s =>
    if s = "" then none
    else
      match normalize_date s with
      | some nd => tryFormat '-' false false nd.data
      | none => none
  | none => none

/-! ### Reminders service (app/services/reminders_service.py) -/

def reminderKindMap : String → Option String
  | "insurance_policy" => some "insurance"
  | "insurance" => some "insurance"
  | "itv" => some "itv"
  | "tachograph" => some "tachograph"
  | _ => none

/-- `date.fromisoformat` on the canonical `YYYY-MM-DD` form (the only
form reaching it here); a failed parse raises, which the caller turns
into `None`. -/
def pyFromIsoDate : List Char → Option PyDate
  | [a, b, c, d, '-', e, f, '-', g, h] =>
    if pyIsDigit a && pyIsDigit b && pyIsDigit c && pyIsDigit d && pyIsDigit e &&
        pyIsDigit f && pyIsDigit g && pyIsDigit h then
      let y := natOfDigits [a, b, c, d]
      let m := natOfDigits [e, f]
      let dd := natOfDigits [g, h]
      if validDate y m dd then some ⟨y, m, dd⟩ else none
    else none
  | _ => none

/-- Due-date parsing of `create_reminder_from_document` (lines 38-60):
ISO for 10-character dash strings, else the three fallback formats. -/
def parseDueStr (s : String) : Option PyDate :=
  let l := s.data
  if l.length = 10 ∧ l.contains '-' then pyFromIsoDate l
  else
    (tryFormat '/' true false l).orElse fun _ =>
    (tryFormat '-' true false l).orElse fun _ =>
    (tryFormat '/' false false l)

def matchReminder (vid : ℕ) (kind : String) (did : ℕ) (r : Reminder) : Bool :=
  r.vehicle_id == vid && r.kind == kind && r.document_id == some did &&
    r.status == "active"

/-- In-place mutation of the first row returned by the query. -/
def updateFirst {α : Type} (p : α → Bool) (f : α → α) : List α → List α
  | [] => []
  | x :: xs => if p x then f x :: xs else x :: updateFirst p f xs

/-- `(extracted.get("doc_type") or doc.doc_type or "").lower()`
(create_reminder_from_document line 17). -/
def reminderDocType (doc : Doc) (ext : CExtract) : String :=
  String.mk (((pyOrStr ext.doc_type (pyOrStr doc.doc_type (some ""))).getD "").data.map
    pyLowerChar)

/-- Due-date source selection of `create_reminder_from_document`
(lines 20-23): the extracted date when truthy, else the ISO rendering
of the document due date. -/
def reminderDueStr (doc : Doc) (ext : CExtract) : Option String :=
  if optStrTruthy ext.date_due then ext.date_due
  else
    match doc.due_date with
    | some d => some (String.mk (fmtYMD d))
    | none => ext.date_due

/-- Source: `create_reminder_from_document(doc, extracted)`.  Returns
the new current state, the returned reminder, and whether the update
branch issued its own commit. -/
def create_reminder_from_document (cur : DB) (doc : Doc) (ext : CExtract) :
    DB × Option Reminder × Bool :=
  if !optStrTruthy (reminderDueStr doc ext) || !optNatTruthy doc.vehicle_id then
    (cur, none, false)
  else
    match reminderKindMap (reminderDocType doc ext) with
    | none => (cur, none, false)
    | some kind =>
      match parseDueStr ((reminderDueStr doc ext).getD "") with
      | none => (cur, none, false)
      | some due =>
        match cur.reminders.find? (matchReminder (doc.vehicle_id.getD 0) kind doc.id) with
        | some existing =>
          if existing.due_date ≠ due then
            let upd := updateFirst (matchReminder (doc.vehicle_id.getD 0) kind doc.id)
              (fun r => { r with due_date := due }) cur.reminders
            ({ cur with reminders := upd }, some { existing with due_date := due }, true)
          else (cur, some existing, false)
        | none =>
          let r : Reminder := ⟨doc.vehicle_id.getD 0, kind, due, "active", some doc.id⟩
          ({ cur with reminders := cur.reminders ++ [r] }, some r, false)

/-- Source: `update_reminders_from_extraction(doc, extracted)`.  When a
reminder was produced, commits; a failing commit (`remCommitFails`) is
caught, logged and rolled back. -/
def update_reminders_from_extraction (st : SState) (remCommitFails : Bool)
    (doc : Doc) (ext : CExtract) : SState :=
  let (cur1, rem, innerCommitted) := create_reminder_from_document st.current doc ext
  let dur1 := if innerCommitted then cur1 else st.durable
  match rem with
  | some _ => if remCommitFails then ⟨dur1, dur1⟩ else ⟨cur1, cur1⟩
  | none => ⟨dur1, cur1⟩

/-! ### process_document (app/services/document_processor.py, lines 36-318) -/

/-- External collaborators of one `process_document` run: the stored
file, the vision-model call, the current date, and whether the commit
issued by the reminders step fails. -/
structure Env where
  fileExists : Bool
  readOk : Bool
  readErr : String
  extract : Except String RawExtract
  today : PyDate
  remCommitFails : Bool

/-- Source: `process_document(document_id)`.  Returns `(state, success,
message)`; a `none` result models an exception escaping the function
(only possible in the fuel-entry `Decimal(str(...))` conversions). -/
def process_document (env : Env) (st : SState) (document_id : ℕ) :
    Option (SState × Bool × String) :=
  match findDoc st.current document_id with
  | none => some (st, false, "Documento no encontrado")
  | some doc =>
    if doc.status = "processed" then some (st, true, "Ya estaba procesado")
    else if env.fileExists = false then
      let cur := replaceDoc st.current
        { doc with status := "error", error_message := some "Archivo no encontrado" }
      some (⟨cur, cur⟩, false, "Archivo no encontrado")
    else if env.readOk = false then
      let cur := replaceDoc st.current
        { doc with status := "error", error_message := some env.readErr }
      some (⟨cur, cur⟩, false, env.readErr)
    else
      let vehicle_plate := (doc.vehicle_id.bind (findVehicleById st.current)).map Vehicle.plate
      match env.extract with
      | .error e =>
        let cur := replaceDoc st.current
          { doc with status := "error", error_message := some e }
        some (⟨cur, cur⟩, false, e)
      | .ok raw =>
        let ext := validate_and_enrich raw vehicle_plate
        -- vehicle auto-association (lines 85-111)
        let assoc : DB × Doc :=
          if optStrTruthy ext.vehicle_identifier_guess then
            match normalize_plate (ext.vehicle_identifier_guess.getD "") with
            | some p =>
              match findVehicleByPlate st.current p with
              | some v => (st.current, { doc with vehicle_id := some v.id })
              | none =>
                (addVehicle st.current p,
                 { doc with vehicle_id := some st.current.nextVehicleId })
            | none => (st.current, doc)
          else (st.current, doc)
        let cur0 := assoc.1
        let doc0 := assoc.2
        let amounts := ext.amounts
        let fuel := ext.fuel
        let (subF, taxF, totF) := reconcile_taxes (some (ext.doc_type.getD "other"))
            amounts.subtotal amounts.tax amounts.total
        let doc2 := { doc0 with
          doc_type := some (ext.doc_type.getD "other")
          vendor := pyOrStr ext.vendor_name ext.vendor
          issue_date := docDateOf ext.date_issue
          due_date := docDateOf ext.date_due
          subtotal_amount := subF
          tax_amount := taxF
          total_amount := totF
          currency := (match amounts.currency with
            | some c => if c = "" then "EUR" else c
            | none => "EUR")
          odometer_km := ext.odometer_km
          extracted_json_set := true
          processed_at_set := true
          status := "processed"
          error_message := none }
        -- flushes at lines 233 and 242 make the document writes visible
        let cur1 := replaceDoc cur0 doc2
        -- FuelEntry creation (lines 244-297)
        let fuelStep : Option DB :=
          if doc2.doc_type = some "fuel_ticket" ∧ optNatTruthy doc2.vehicle_id then
            let liters := fuel.liters
            let price := fuel.price_per_liter
            let total := pyOrPyv fuel.total_amount (amounts.total.map PyV.vnum)
            if optQTruthy liters ∧ (optPyvTruthy total ∨ (optQTruthy liters ∧ optQTruthy price)) then
              let total_decimal : Option ℚ :=
                match total with
                | some (.vnum q) => some q
                | some (.vstr s) => if s = "" then some 0 else pyDecimalOfChars s.data
                | none => some 0
              match total_decimal with
              | none => none
              | some td =>
                let subtotal := doc2.subtotal_amount
                let tax := doc2.tax_amount
                let st2 :=
                  if subtotal = none ∧ td ≠ 0 then
                    (some (td / 1.21), some (td - td / 1.21))
                  else if tax = none ∧ optQTruthy subtotal ∧ td ≠ 0 then
                    (subtotal, some (td - subtotal.getD 0))
                  else (subtotal, tax)
                let kilometers : Option ℤ :=
                  if optPyvTruthy fuel.odometer_km then
                    (fuel.odometer_km.getD (PyV.vnum 0) |> pyIntOf)
                  else
                    match doc2.odometer_km with
                    | some k => if k ≠ 0 then some k else none
                    | none => none
                let entry : FuelEntry :=
                  { id := cur1.nextFuelEntryId
                    document_id := some doc2.id
                    vehicle_id := doc2.vehicle_id.getD 0
                    date := doc2.issue_date.getD env.today
                    liters := liters.getD 0
                    price_per_liter := if optQTruthy price then price.getD 0 else 0
                    subtotal_amount := st2.1
                    tax_amount := st2.2
                    total_amount := td
                    station := doc2.vendor
                    fuel_type := fuel.fuel_type
                    kilometers := kilometers }
                some { cur1 with
                         fuel_entries := cur1.fuel_entries ++ [entry]
                         nextFuelEntryId := cur1.nextFuelEntryId + 1 }
            else some cur1
          else some cur1
        match fuelStep with
        | none => none
        | some cur2 =>
          -- ExpenseEntry creation (lines 299-312)
          let category := docTypeToExpenseCategory doc2.doc_type
          let cur3 :=
            if optStrTruthy category ∧ optNatTruthy doc2.vehicle_id ∧
                optQTruthy doc2.total_amount then
              { cur2 with expense_entries := cur2.expense_entries ++
                [{ document_id := some doc2.id
                   vehicle_id := doc2.vehicle_id.getD 0
                   date := doc2.issue_date.getD env.today
                   category := category.getD ""
                   subtotal_amount := doc2.subtotal_amount
                   tax_amount := doc2.tax_amount
                   total_amount := doc2.total_amount.getD 0
                   vendor := doc2.vendor }] }
            else cur2
          -- reminders (line 315) and the final commit (line 317)
          let stR := update_reminders_from_extraction ⟨st.durable, cur3⟩
            env.remCommitFails doc2 ext
          some (⟨stR.current, stR.current⟩, true, "Documento procesado correctamente")

/-! ### Telegram conversation handler
(app/routes/telegram_webhook.py; sessions live in the store, outbound
messages carry no claim-relevant state and are dropped) -/

structure TgSession where
  current_vehicle_id : Option ℕ
  pending_action : Option String
  pending_vehicle_id : Option ℕ
  pending_file_id : Option String
  pending_file_path : Option String
deriving DecidableEq, Repr

structure TgState where
  session : TgSession
  db : DB
deriving DecidableEq, Repr

/-- Source: `clear_pending_state(user_id)` (lines 73-80). -/
def clear_pending_state (st : TgState) : TgState :=
  { st with session :=
      { st.session with
          pending_action := none
          pending_vehicle_id := none
          pending_file_id := none
          pending_file_path := none } }

/-- `text.strip().upper().replace(" ", "")`. -/
def textCleanOf (t : String) : String :=
  String.mk (removeChar ' ' ((pyStrip t.data).map pyUpperChar))

def pyLowerStr (s : String) : String := String.mk (s.data.map pyLowerChar)

/-- `FuelEntry.query.filter_by(vehicle_id=..., kilometers=None)
.order_by(FuelEntry.id.desc()).first()`, as the index of the matching
row with the greatest id. -/
def lastNullKmIdx (l : List FuelEntry) (vid : ℕ) : Option ℕ :=
  ((List.range l.length).filter (fun i =>
      match l[i]? with
      | some e => e.vehicle_id == vid && decide (e.kilometers = none)
      | none => false)).argmax
    (fun i => (l[i]?.map FuelEntry.id).getD 0)

def setFuelKm (l : List FuelEntry) (i : ℕ) (km : Option ℤ) : List FuelEntry :=
  match l[i]? with
  | some e => l.set i { e with kilometers := km }
  | none => l

/-- The `waiting_plate_` branch of `handle_text_message`
(lines 271-292): a valid plate selects or creates the vehicle and
advances the pending action. -/
def handlePlateState (st : TgState) (action : String) (text_clean : String) : TgState :=
  if 6 ≤ text_clean.data.length ∧ text_clean.data.all pyIsAlnum then
    let found := findVehicleByPlate st.db text_clean
    let db1 :=
      match found with
      | some _ => st.db
      | none => addVehicle st.db text_clean
    let vid :=
      match found with
      | some v => v.id
      | none => st.db.nextVehicleId
    let pa := if action = "ticket" then some "upload_ticket"
      else if action = "document" then some "upload_document"
      else st.session.pending_action
    { st with
        db := db1
        session := { st.session with pending_vehicle_id := some vid, pending_action := pa } }
  else st

/-- The tail of `handle_text_message` (lines 294-316): bare plate
selection/creation; `/vehiculo` and unrecognized text only send
replies. -/
def handleBarePlate (st : TgState) (text_clean : String) : TgState :=
  if 6 ≤ text_clean.data.length ∧ text_clean.data.all pyIsAlnum then
    let found := findVehicleByPlate st.db text_clean
    let db1 :=
      match found with
      | some _ => st.db
      | none => addVehicle st.db text_clean
    let vid :=
      match found with
      | some v => v.id
      | none => st.db.nextVehicleId
    { st with
        db := db1
        session := { st.session with current_vehicle_id := some vid } }
  else st

/-- Source: `handle_text_message(chat_id, user_id, text, token)`
(lines 232-316), as a state transformer; outbound sends are dropped. -/
def handle_text_message (st : TgState) (text : String) : TgState :=
  let text_clean := textCleanOf text
  let session := st.session
  if session.pending_action = some "waiting_km" then
    let kmRes : Option (Option ℤ) :=
      if pyLowerStr text_clean = "skip" ∨ pyLowerStr text_clean = "omitir" then some none
      else
        match pyIntOfStr text_clean with
        | some k => some (some k)
        | none => none
    match kmRes with
    | none => st
    | some kilometers =>
      let st1 :=
        match session.pending_vehicle_id with
        | some vid =>
          match lastNullKmIdx st.db.fuel_entries vid with
          | some i =>
            { st with db :=
                { st.db with fuel_entries := setFuelKm st.db.fuel_entries i kilometers } }
          | none => st
        | none => st
      clear_pending_state st1
  else if (match session.pending_action with
           | some a => decide (a.data.take 14 = "waiting_plate_".data)
           | none => false) then
    handlePlateState st (String.mk ((session.pending_action.getD "").data.drop 14)) text_clean
  else
    handleBarePlate st text_clean

/-- Number of `active` reminder rows for one (vehicle, kind, source
document) tuple. -/
def countActive (db : DB) (v : ℕ) (k : String) (d : ℕ) : ℕ :=
  (db.reminders.filter (matchReminder v k d)).length

/-! ### Concrete fixtures used by witnesses and counterexamples -/

def exampleVehicle : Vehicle := ⟨1, "1234ABC", true⟩

def exampleDoc : Doc :=
  { id := 5, vehicle_id := some 1, user_id := some 1, doc_type := none,
    file_path := "a.jpg", status := "pending", error_message := none,
    vendor := none, issue_date := none, due_date := none,
    subtotal_amount := none, tax_amount := none, total_amount := none,
    currency := "EUR", odometer_km := none,
    extracted_json_set := false, processed_at_set := false }

def exampleDb : DB :=
  { vehicles := [exampleVehicle], documents := [exampleDoc], fuel_entries := [],
    expense_entries := [], reminders := [], nextVehicleId := 2, nextFuelEntryId := 1 }

def processedDb : DB :=
  { exampleDb with documents := [{ exampleDoc with status := "processed" }] }

/-- Extraction carrying a plate guess that differs from the vehicle the
document was uploaded against. -/
def rawGuess : RawExtract :=
  { doc_type := some "other", vehicle_identifier_guess := some "5678XYZ" }

def envGuess : Env := ⟨true, true, "", .ok rawGuess, ⟨2024, 1, 15⟩, false⟩

/-- Insurance-policy extraction with a due date and a numeric total. -/
def rawInsurance : RawExtract :=
  { doc_type := some "insurance_policy", date_due := some "01/06/2025",
    amounts := { total := some (PyV.vnum 300) } }

/-- Same run, but the commit issued for the derived reminder fails. -/
def envInsuranceFail : Env := ⟨true, true, "", .ok rawInsurance, ⟨2024, 1, 15⟩, true⟩

/-- Canonical insurance extraction with a given ISO due date (used to
drive the reminder upsert directly). -/
def extInsurance (d : String) : CExtract :=
  { doc_type := some "insurance_policy", vehicle_identifier_guess := none,
    vendor_name := none, vendor := none, date_issue := none, date_due := some d,
    amounts := ⟨none, none, none, none⟩,
    fuel := ⟨none, none, none, none, none⟩, odometer_km := none }

def exampleFuelEntry : FuelEntry :=
  { id := 1, document_id := some 5, vehicle_id := 1, date := ⟨2024, 1, 15⟩,
    liters := 30, price_per_liter := 1, subtotal_amount := none,
    tax_amount := none, total_amount := 30, station := none, fuel_type := none,
    kilometers := none }

def exampleTgState : TgState :=
  ⟨⟨some 1, some "waiting_km", some 1, some "f1", some "p1"⟩,
   { exampleDb with fuel_entries := [exampleFuelEntry] }⟩

/-- Derivations of the tail pattern `(sep \d{3})* dec \d+`, used to
decompose strings accepted by the grouped-number automaton. -/
inductive GrpTail (sep dec : Char) : List Char → Prop where
  | base (fp : List Char) (h1 : fp ≠ []) (h2 : fp.all pyIsDigit = true) :
      GrpTail sep dec (dec :: fp)
  | group (a b c : Char) (t : List Char) (ha : pyIsDigit a = true)
      (hb : pyIsDigit b = true) (hc : pyIsDigit c = true)
      (ht : GrpTail sep dec t) : GrpTail sep dec (sep :: a :: b :: c :: t)

end Iara

namespace Iara

theorem all_mem_of {α : Type} {p : α → Bool} {l : List α} (h : l.all p = true) :
    ∀ x ∈ l, p x = true :=
  List.all_eq_true.mp h

theorem all_takeWhile {α : Type} (p : α → Bool) (l : List α) :
    (l.takeWhile p).all p = true := by
  induction l with
  | nil => simp
  | cons c r ih =>
    by_cases hc : p c
    · simpa [List.takeWhile_cons, hc] using ih
    · simp [List.takeWhile_cons, hc]

theorem takeWhile_append_of_all {α : Type} {p : α → Bool} {a : List α} (b : List α)
    (h : ∀ x ∈ a, p x = true) : (a ++ b).takeWhile p = a ++ b.takeWhile p := by
  induction a with
  | nil => simp
  | cons x xs ih =>
    have hx : p x = true := h x (List.mem_cons_self _ _)
    simp only [List.cons_append, List.takeWhile_cons, hx, if_true]
    rw [ih (fun y hy => h y (List.mem_cons_of_mem _ hy))]

theorem takeWhile_of_all {α : Type} {p : α → Bool} {l : List α}
    (h : ∀ x ∈ l, p x = true) : l.takeWhile p = l := by
  have := takeWhile_append_of_all (p := p) (a := l) [] h
  simpa using this

theorem takeWhile_drop_eq {α : Type} (p : α → Bool) (l : List α) :
    l = l.takeWhile p ++ l.drop (l.takeWhile p).length := by
  induction l with
  | nil => rfl
  | cons c r ih =>
    by_cases hp : p c
    · simp only [List.takeWhile_cons, hp, if_true, List.length_cons, List.drop_succ_cons,
        List.cons_append]
      exact congrArg (c :: ·) ih
    · simp [List.takeWhile_cons, hp]

theorem swapChar_eq_self {x y : Char} {l : List Char}
    (h : ∀ c ∈ l, (c == x) = false) : swapChar x y l = l := by
  induction l with
  | nil => rfl
  | cons c r ih =>
    have hc := h c (List.mem_cons_self _ _)
    simp only [swapChar, List.map_cons, hc, Bool.false_eq_true, if_false]
    have := ih (fun d hd => h d (List.mem_cons_of_mem _ hd))
    simpa [swapChar] using this

theorem swapChar_self (x : Char) (l : List Char) : swapChar x x l = l := by
  unfold swapChar
  conv_rhs => rw [← List.map_id l]
  apply List.map_congr_left
  intro a _
  by_cases h : a == x
  · simp only [h, if_true, id]
    exact (beq_iff_eq.mp h).symm
  · simp [h]

theorem filter_eq_self_of {α : Type} {p : α → Bool} {l : List α}
    (h : ∀ x ∈ l, p x = true) : l.filter p = l :=
  List.filter_eq_self.mpr h

theorem digit_beq_false {c x : Char} (hc : pyIsDigit c = true)
    (hx : pyIsDigit x = false) : (c == x) = false := by
  apply beq_eq_false_iff_ne.mpr
  intro h
  rw [h] at hc
  rw [hc] at hx
  exact Bool.true_eq_false.mp hx

theorem grp_foldl_bad (sep dec : Char) (t : List Char) :
    t.foldl (grpStep sep dec) .bad = .bad := by
  induction t with
  | nil => rfl
  | cons c r ih => simpa [List.foldl_cons, grpStep] using ih

theorem grp_foldl_f1 (sep dec : Char) (t : List Char) :
    t.foldl (grpStep sep dec) .f1 = .f1 ↔ t.all pyIsDigit = true := by
  induction t with
  | nil => simp
  | cons c r ih =>
    by_cases hc : pyIsDigit c
    · simp [List.foldl_cons, grpStep, hc, ih]
    · simp [List.foldl_cons, grpStep, hc, grp_foldl_bad]

theorem grp_foldl_f0 (sep dec : Char) (t : List Char) :
    t.foldl (grpStep sep dec) .f0 = .f1 ↔ (t ≠ [] ∧ t.all pyIsDigit = true) := by
  cases t with
  | nil => simp
  | cons c r =>
    by_cases hc : pyIsDigit c
    · simp [List.foldl_cons, grpStep, hc, grp_foldl_f1]
    · simp [List.foldl_cons, grpStep, hc, grp_foldl_bad]

theorem grp_foldl_d1 (sep dec : Char) (r : List Char)
    (h : r.foldl (grpStep sep dec) .d1 = .f1) :
    ∃ a b c t2, r = a :: b :: c :: t2 ∧ pyIsDigit a = true ∧ pyIsDigit b = true
      ∧ pyIsDigit c = true ∧ t2.foldl (grpStep sep dec) .start = .f1 := by
  match r with
  | [] => simp at h
  | [a] =>
    by_cases ha : pyIsDigit a <;> simp [List.foldl_cons, grpStep, ha] at h
  | [a, b] =>
    by_cases ha : pyIsDigit a <;> by_cases hb : pyIsDigit b <;>
      simp [List.foldl_cons, grpStep, ha, hb, grp_foldl_bad] at h
  | a :: b :: c :: t2 =>
    by_cases ha : pyIsDigit a
    · by_cases hb : pyIsDigit b
      · by_cases hc : pyIsDigit c
        · refine ⟨a, b, c, t2, rfl, ha, hb, hc, ?_⟩
          simpa [List.foldl_cons, grpStep, ha, hb, hc] using h
        · simp [List.foldl_cons, grpStep, ha, hb, hc, grp_foldl_bad] at h
      · simp [List.foldl_cons, grpStep, ha, hb, grp_foldl_bad] at h
    · simp [List.foldl_cons, grpStep, ha, grp_foldl_bad] at h

theorem grpTail_sound (sep dec : Char) :
    ∀ t : List Char, t.foldl (grpStep sep dec) .start = .f1 → GrpTail sep dec t := by
  suffices H : ∀ n, ∀ t : List Char, t.length = n →
      t.foldl (grpStep sep dec) .start = .f1 → GrpTail sep dec t by
    intro t h
    exact H t.length t rfl h
  intro n
  induction n using Nat.strong_induction_on with
  | _ n ih =>
    intro t hlen h
    cases t with
    | nil => simp at h
    | cons c r =>
      by_cases hc1 : c == sep
      · rw [List.foldl_cons, grpStep, if_pos hc1] at h
        obtain ⟨a, b, c2, t2, hr, ha, hb, hc2, h2⟩ := grp_foldl_d1 sep dec r h
        have hlt : t2.length < n := by
          subst hr
          simp only [List.length_cons] at hlen
          omega
        have := ih t2.length hlt t2 rfl h2
        rw [beq_iff_eq.mp hc1, hr]
        exact GrpTail.group a b c2 t2 ha hb hc2 this
      · by_cases hc2 : c == dec
        · rw [List.foldl_cons, grpStep, if_neg (by simp [hc1]), if_pos hc2] at h
          obtain ⟨h1, h2⟩ := (grp_foldl_f0 sep dec r).mp h
          rw [beq_iff_eq.mp hc2]
          exact GrpTail.base r h1 h2
        · rw [List.foldl_cons, grpStep, if_neg (by simp [hc1]),
            if_neg (by simp [hc2]), grp_foldl_bad] at h
          simp at h

theorem grpTail_decomp {sep dec : Char} {t : List Char} (h : GrpTail sep dec t) :
    ∃ gs fp, t = gs ++ dec :: fp ∧ (∀ x ∈ gs, pyIsDigit x = true ∨ x = sep)
      ∧ fp ≠ [] ∧ fp.all pyIsDigit = true := by
  induction h with
  | base fp h1 h2 => exact ⟨[], fp, rfl, by simp, h1, h2⟩
  | group a b c t2 ha hb hc ht ih =>
    obtain ⟨gs, fp, heq, hgs, hfp1, hfp2⟩ := ih
    refine ⟨sep :: a :: b :: c :: gs, fp, by simp [heq], ?_, hfp1, hfp2⟩
    intro x hx
    simp only [List.mem_cons] at hx
    rcases hx with rfl | rfl | rfl | rfl | hx
    · exact Or.inr rfl
    · exact Or.inl ha
    · exact Or.inl hb
    · exact Or.inl hc
    · exact hgs x hx

/-- Key refinement fact behind C7: on any string accepted by the grouped
pattern, the transform-then-parse route of the source equals the
structural reading of the spec. -/
theorem grouped_parse (sep dec : Char) (hsd : sep ≠ dec)
    (hsdig : pyIsDigit sep = false) (hddig : pyIsDigit dec = false)
    (l : List Char) (hm : isGrouped sep dec l = true) :
    pyDecimalOfChars (swapChar dec '.' (removeChar sep l)) =
      some (groupedValue sep dec l) := by
  unfold isGrouped at hm
  simp only [Bool.and_eq_true, decide_eq_true_eq, beq_iff_eq] at hm
  obtain ⟨⟨hds1, _⟩, hfold⟩ := hm
  obtain ⟨gs, fp, hteq, hgs, hfp1, hfp2⟩ := grpTail_decomp (grpTail_sound sep dec _ hfold)
  have hsplit : l = l.takeWhile pyIsDigit ++ (gs ++ dec :: fp) := by
    conv_lhs => rw [takeWhile_drop_eq pyIsDigit l]
    rw [hteq]
  set ds := l.takeWhile pyIsDigit with hds_def
  have hds_all : ∀ x ∈ ds, pyIsDigit x = true := all_mem_of (by
    rw [hds_def]
    exact all_takeWhile _ _)
  have hfp_all : ∀ x ∈ fp, pyIsDigit x = true := all_mem_of hfp2
  -- removeChar sep l
  have hgs_nosep : ∀ x ∈ removeChar sep gs, pyIsDigit x = true := by
    intro x hx
    simp only [removeChar, List.mem_filter, Bool.not_eq_true'] at hx
    rcases hgs x hx.1 with h | h
    · exact h
    · exact absurd (beq_iff_eq.mpr h) (by simp [hx.2])
  set gs2 := removeChar sep gs with hgs2_def
  have hrm : removeChar sep l = ds ++ (gs2 ++ dec :: fp) := by
    rw [hsplit]
    simp only [removeChar, List.filter_append]
    congr 1
    · exact filter_eq_self_of (fun x hx => by simp [digit_beq_false (hds_all x hx) hsdig])
    congr 1
    rw [List.filter_cons]
    have : (dec == sep) = false := beq_eq_false_iff_ne.mpr (Ne.symm hsd)
    simp only [this, Bool.not_false, if_true]
    rw [filter_eq_self_of (fun x hx => by simp [digit_beq_false (hfp_all x hx) hsdig])]
  -- swapChar dec '.'
  have hsw : swapChar dec '.' (ds ++ (gs2 ++ dec :: fp)) = ds ++ (gs2 ++ '.' :: fp) := by
    simp only [swapChar, List.map_append, List.map_cons, beq_self_eq_true, if_true]
    rw [show (fun c => if c == dec then '.' else c) = fun c => if c == dec then '.' else c from rfl]
    congr 1
    · exact swapChar_eq_self (fun c hc => digit_beq_false (hds_all c hc) hddig)
    congr 1
    · exact swapChar_eq_self (fun c hc => digit_beq_false (hgs_nosep c hc) hddig)
    congr 1
    exact swapChar_eq_self (fun c hc => digit_beq_false (hfp_all c hc) hddig)
  -- the parse of the transformed string
  obtain ⟨d0, ds1, hds_cons⟩ :=
    List.exists_cons_of_ne_nil (List.length_pos.mp hds1)
  have hd0 : pyIsDigit d0 = true := hds_all d0 (by rw [hds_cons]; exact List.mem_cons_self _ _)
  have hparse : pyDecimalOfChars (ds ++ (gs2 ++ '.' :: fp)) =
      some ((natOfDigits (ds ++ gs2) : ℚ) + (natOfDigits fp : ℚ) / 10 ^ fp.length) := by
    have hhead : (ds ++ (gs2 ++ '.' :: fp)).head? = some d0 := by
      rw [hds_cons]; rfl
    have hne1 : ((ds ++ (gs2 ++ '.' :: fp)).head? = some '-') = False := by
      rw [hhead]
      simp only [Option.some.injEq, eq_iff_iff, iff_false]
      intro h
      rw [h] at hd0
      exact absurd hd0 (by decide)
    have hne2 : ((ds ++ (gs2 ++ '.' :: fp)).head? = some '+') = False := by
      rw [hhead]
      simp only [Option.some.injEq, eq_iff_iff, iff_false]
      intro h
      rw [h] at hd0
      exact absurd hd0 (by decide)
    rw [pyDecimalOfChars, if_neg (by rw [hne1]; exact id), if_neg (by rw [hne2]; exact id)]
    simp only [pyDecimalUnsigned]
    have htw : (ds ++ (gs2 ++ '.' :: fp)).takeWhile pyIsDigit = ds ++ gs2 := by
      rw [takeWhile_append_of_all _ hds_all, takeWhile_append_of_all _ hgs_nosep]
      simp [List.takeWhile_cons, show pyIsDigit '.' = false from by decide]
    rw [htw]
    have hdrop : (ds ++ (gs2 ++ '.' :: fp)).drop (ds ++ gs2).length = '.' :: fp := by
      rw [← List.append_assoc]
      exact List.drop_left _ _
    rw [hdrop]
    have hip_ne : (ds ++ gs2).isEmpty = false := by
      rw [hds_cons]; rfl
    simp [takeWhile_of_all hfp_all, hip_ne, List.drop_length]
  -- the structural value
  have hgv : groupedValue sep dec l =
      (natOfDigits (ds ++ gs2) : ℚ) + (natOfDigits fp : ℚ) / 10 ^ fp.length := by
    simp only [groupedValue]
    have hne_dec_ds : ∀ x ∈ ds, (!(x == dec)) = true :=
      fun x hx => by simp [digit_beq_false (hds_all x hx) hddig]
    have hne_dec_gs : ∀ x ∈ gs, (!(x == dec)) = true := by
      intro x hx
      rcases hgs x hx with h | h
      · simp [digit_beq_false h hddig]
      · subst h
        simp [beq_eq_false_iff_ne.mpr hsd]
    have htw : l.takeWhile (fun c => !(c == dec)) = ds ++ gs := by
      conv_lhs => rw [hsplit]
      rw [takeWhile_append_of_all _ hne_dec_ds, takeWhile_append_of_all _ hne_dec_gs]
      simp [List.takeWhile_cons]
    rw [htw]
    have hdrop : l.drop ((ds ++ gs).length + 1) = fp := by
      conv_lhs => rw [hsplit]
      have : ds ++ (gs ++ dec :: fp) = (ds ++ gs ++ [dec]) ++ fp := by simp
      rw [this]
      have hlen : (ds ++ gs).length + 1 = (ds ++ gs ++ [dec]).length := by simp <;> omega
      rw [hlen]
      exact List.drop_left _ _
    rw [hdrop]
    have hrc : removeChar sep (ds ++ gs) = ds ++ gs2 := by
      simp only [removeChar, List.filter_append]
      congr 1
      exact filter_eq_self_of (fun x hx => by simp [digit_beq_false (hds_all x hx) hsdig])
    rw [hrc]
  rw [hrm, hsw, hparse, hgv]

end Iara

namespace Iara

/-- C7: `normalize_amount` strips currency symbols and whitespace, then
classifies the cleaned string by regex priority (European grouping
first, then Anglo grouping, then bare comma-decimal, else parse as-is),
returning `null` on unparseable input and never raising; it agrees
everywhere with the spec-side reference `normalizeAmountSpec`, and in
particular `normalize_amount "1.234,56" = 1234.56`,
`normalize_amount "1,234.56" = 1234.56` and
`normalize_amount "45,99" = 45.99`. -/
theorem C7_normalize_amount :
    (∀ s : String, normalize_amount s = normalizeAmountSpec s)
    ∧ normalize_amount "1.234,56" = some (1234.56 : ℚ)
    ∧ normalize_amount "1,234.56" = some (1234.56 : ℚ)
    ∧ normalize_amount "45,99" = some (45.99 : ℚ)
    ∧ normalize_amount "1,2,3" = none := by
  refine ⟨?main, ?e1, ?e2, ?e3, rfl⟩
  case e1 =>
    rw [show normalize_amount "1.234,56" =
      some ((natOfDigits ['1', '2', '3', '4'] : ℚ)
        + (natOfDigits ['5', '6'] : ℚ) / 10 ^ (2 : ℕ)) from rfl]
    rw [show natOfDigits ['1', '2', '3', '4'] = 1234 from rfl,
      show natOfDigits ['5', '6'] = 56 from rfl]
    norm_num
  case e2 =>
    rw [show normalize_amount "1,234.56" =
      some ((natOfDigits ['1', '2', '3', '4'] : ℚ)
        + (natOfDigits ['5', '6'] : ℚ) / 10 ^ (2 : ℕ)) from rfl]
    rw [show natOfDigits ['1', '2', '3', '4'] = 1234 from rfl,
      show natOfDigits ['5', '6'] = 56 from rfl]
    norm_num
  case e3 =>
    rw [show normalize_amount "45,99" =
      some ((natOfDigits ['4', '5'] : ℚ)
        + (natOfDigits ['9', '9'] : ℚ) / 10 ^ (2 : ℕ)) from rfl]
    rw [show natOfDigits ['4', '5'] = 45 from rfl,
      show natOfDigits ['9', '9'] = 99 from rfl]
    norm_num
  case main =>
  intro s
  unfold normalize_amount normalizeAmountChars normalizeAmountSpec
  by_cases h0 : (pyStrip s.data).isEmpty
  · simp [h0]
  · simp only [h0, Bool.false_eq_true, if_false]
    by_cases h1 : isGrouped '.' ',' ((pyStrip s.data).filter amountKeep) = true
    · simp only [h1, if_true]
      exact grouped_parse '.' ',' (by decide) (by decide) (by decide) _ h1
    · simp only [h1, Bool.false_eq_true, if_false]
      by_cases h2 : isGrouped ',' '.' ((pyStrip s.data).filter amountKeep) = true
      · simp only [h2, if_true]
        have h3 := grouped_parse ',' '.' (by decide) (by decide) (by decide) _ h2
        rw [swapChar_self] at h3
        exact h3
      · simp only [h2, Bool.false_eq_true, if_false]

theorem pyIsDigit_bounds {c : Char} (h : pyIsDigit c = true) :
    48 ≤ c.toNat ∧ c.toNat ≤ 57 := by
  simp only [pyIsDigit, Bool.and_eq_true, decide_eq_true_eq] at h
  exact h

theorem digit_ne_small {c x : Char} (h : pyIsDigit c = true) (hx : x.toNat < 48) :
    (c == x) = false := by
  obtain ⟨h1, _⟩ := pyIsDigit_bounds h
  apply beq_eq_false_iff_ne.mpr
  intro hcx
  subst hcx
  omega

theorem digit_not_space {c : Char} (h : pyIsDigit c = true) : pyIsSpace c = false := by
  simp only [pyIsSpace, Bool.or_eq_false_iff]
  refine ⟨⟨⟨⟨⟨?_, ?_⟩, ?_⟩, ?_⟩, ?_⟩, ?_⟩ <;>
    exact digit_ne_small h (by decide)

theorem digitChar_toNat_sub {c : Char} (h : pyIsDigit c = true) :
    digitChar (c.toNat - 48) = c := by
  obtain ⟨h1, _⟩ := pyIsDigit_bounds h
  unfold digitChar
  rw [show 48 + (c.toNat - 48) = c.toNat from by omega, Char.ofNat_toNat]

theorem digitChar_isDigit {k : ℕ} (h : k < 10) : pyIsDigit (digitChar k) = true := by
  interval_cases k <;> decide

theorem natOfDigits_two (a b : Char) :
    natOfDigits [a, b] = 10 * (a.toNat - 48) + (b.toNat - 48) := by
  simp only [natOfDigits, List.foldl_cons, List.foldl_nil]
  omega

theorem natOfDigits_four (a b c d : Char) :
    natOfDigits [a, b, c, d] = 1000 * (a.toNat - 48) + 100 * (b.toNat - 48)
      + 10 * (c.toNat - 48) + (d.toNat - 48) := by
  simp only [natOfDigits, List.foldl_cons, List.foldl_nil]
  omega

theorem pad2_round {a b : Char} (ha : pyIsDigit a = true) (hb : pyIsDigit b = true) :
    pad2 (natOfDigits [a, b]) = [a, b] := by
  obtain ⟨ha1, ha2⟩ := pyIsDigit_bounds ha
  obtain ⟨hb1, hb2⟩ := pyIsDigit_bounds hb
  rw [natOfDigits_two]
  unfold pad2
  rw [show (10 * (a.toNat - 48) + (b.toNat - 48)) / 10 % 10 = a.toNat - 48 from by omega,
    show (10 * (a.toNat - 48) + (b.toNat - 48)) % 10 = b.toNat - 48 from by omega,
    digitChar_toNat_sub ha, digitChar_toNat_sub hb]

theorem pad4_round {a b c d : Char} (ha : pyIsDigit a = true) (hb : pyIsDigit b = true)
    (hc : pyIsDigit c = true) (hd : pyIsDigit d = true) :
    pad4 (natOfDigits [a, b, c, d]) = [a, b, c, d] := by
  obtain ⟨ha1, ha2⟩ := pyIsDigit_bounds ha
  obtain ⟨hb1, hb2⟩ := pyIsDigit_bounds hb
  obtain ⟨hc1, hc2⟩ := pyIsDigit_bounds hc
  obtain ⟨hd1, hd2⟩ := pyIsDigit_bounds hd
  rw [natOfDigits_four]
  unfold pad4
  rw [show (1000 * (a.toNat - 48) + 100 * (b.toNat - 48) + 10 * (c.toNat - 48)
        + (d.toNat - 48)) / 1000 % 10 = a.toNat - 48 from by omega,
    show (1000 * (a.toNat - 48) + 100 * (b.toNat - 48) + 10 * (c.toNat - 48)
        + (d.toNat - 48)) / 100 % 10 = b.toNat - 48 from by omega,
    show (1000 * (a.toNat - 48) + 100 * (b.toNat - 48) + 10 * (c.toNat - 48)
        + (d.toNat - 48)) / 10 % 10 = c.toNat - 48 from by omega,
    show (1000 * (a.toNat - 48) + 100 * (b.toNat - 48) + 10 * (c.toNat - 48)
        + (d.toNat - 48)) % 10 = d.toNat - 48 from by omega,
    digitChar_toNat_sub ha, digitChar_toNat_sub hb, digitChar_toNat_sub hc,
    digitChar_toNat_sub hd]

theorem dropWhile_all_false {α : Type} {p : α → Bool} {l : List α}
    (h : ∀ c ∈ l, p c = false) : l.dropWhile p = l := by
  cases l with
  | nil => rfl
  | cons c r => simp [List.dropWhile_cons, h c (List.mem_cons_self _ _)]

theorem pyStrip_eq_self {l : List Char} (h : ∀ c ∈ l, pyIsSpace c = false) :
    pyStrip l = l := by
  unfold pyStrip
  rw [dropWhile_all_false h,
    dropWhile_all_false (fun c hc => h c (List.mem_reverse.mp hc)),
    List.reverse_reverse]

theorem splitOnChar_no_sep {sep : Char} {l : List Char}
    (h : ∀ c ∈ l, (c == sep) = false) : splitOnChar sep l = [l] := by
  induction l with
  | nil => rfl
  | cons c r ih =>
    simp only [splitOnChar]
    rw [ih (fun d hd => h d (List.mem_cons_of_mem _ hd))]
    simp [h c (List.mem_cons_self _ _)]

theorem fmtYMD_shape (dt : PyDate) : shapeYMD (fmtYMD dt) = true := by
  have h10 : ∀ n : ℕ, n % 10 < 10 := fun n => Nat.mod_lt _ (by norm_num)
  simp only [fmtYMD, pad4, pad2, List.cons_append, List.nil_append]
  simp [shapeYMD, digitChar_isDigit (h10 _)]

theorem searchYMD_shape {l r : List Char} (h : searchYMD l = some r) :
    shapeYMD r = true := by
  induction l with
  | nil => simp [searchYMD] at h
  | cons c t ih =>
    by_cases hc : shapeYMD ((c :: t).take 10) = true
    · simp only [searchYMD, hc, if_true, Option.some_inj] at h
      rw [← h]
      exact hc
    · simp only [searchYMD, hc, Bool.false_eq_true, if_false] at h
      exact ih h

theorem shapeDMY_shape {t o : List Char} (h : shapeDMY t = some o) :
    shapeYMD o = true := by
  rcases t with _ | ⟨a, _ | ⟨b, _ | ⟨s, _ | ⟨c, _ | ⟨d, _ | ⟨u, _ | ⟨e, _ | ⟨f, _ |
    ⟨g, _ | ⟨i, _ | ⟨x, rest⟩⟩⟩⟩⟩⟩⟩⟩⟩⟩⟩ <;>
    simp only [shapeDMY] at h
  all_goals try exact Option.noConfusion h
  rw [Option.ite_none_right_eq_some] at h
  obtain ⟨hcond, hsome⟩ := h
  obtain rfl := Option.some_inj.mp hsome
  simp only [Bool.and_eq_true] at hcond
  obtain ⟨⟨⟨⟨⟨⟨⟨⟨⟨ha, hb⟩, _⟩, hc⟩, hd⟩, _⟩, he⟩, hf⟩, hg⟩, hi⟩ := hcond
  simp [shapeYMD, ha, hb, hc, hd, he, hf, hg, hi]

theorem searchDMY_shape {l r : List Char} (h : searchDMY l = some r) :
    shapeYMD r = true := by
  induction l with
  | nil => simp [searchDMY] at h
  | cons c t ih =>
    cases hc : shapeDMY ((c :: t).take 10) with
    | some o =>
      simp only [searchDMY, hc, Option.some_inj] at h
      rw [← h]
      exact shapeDMY_shape hc
    | none =>
      simp only [searchDMY, hc] at h
      exact ih h

/-- Every non-null output of `normalize_date` has the ten-character
shape `\d{4}-\d{2}-\d{2}`. -/
theorem normDate_shape {l r : List Char} (h : normalizeDateChars l = some r) :
    shapeYMD r = true := by
  unfold normalizeDateChars at h
  by_cases h0 : (pyStrip l).isEmpty
  · simp [h0] at h
  · simp only [h0, Bool.false_eq_true, if_false] at h
    cases hf : tryAllFormats (pyStrip l) with
    | some dt =>
      rw [hf, Option.some_inj] at h
      rw [← h]
      exact fmtYMD_shape dt
    | none =>
      rw [hf] at h
      cases hs : searchYMD (pyStrip l) with
      | some m =>
        rw [hs, Option.some_inj] at h
        rw [← h]
        exact searchYMD_shape hs
      | none =>
        rw [hs] at h
        exact searchDMY_shape h

/-- Every ten-character `\d{4}-\d{2}-\d{2}` string is a fixed point of
`normalize_date`: either the leading ISO `strptime` format accepts it
and re-renders it unchanged, or every format fails and the first regex
search returns the string itself. -/
theorem shapeYMD_fixpoint {r : List Char} (hsh : shapeYMD r = true) :
    normalizeDateChars r = some r := by
  rcases r with _ | ⟨a, _ | ⟨b, _ | ⟨c, _ | ⟨d, _ | ⟨e, _ | ⟨f, _ | ⟨g, _ | ⟨h2, _ |
    ⟨i, _ | ⟨j, _ | ⟨x, rest⟩⟩⟩⟩⟩⟩⟩⟩⟩⟩⟩ <;>
    simp only [shapeYMD, Bool.false_eq_true] at hsh
  simp only [Bool.and_eq_true, beq_iff_eq] at hsh
  obtain ⟨⟨⟨⟨⟨⟨⟨⟨⟨ha, hb⟩, hc⟩, hd⟩, he⟩, hf⟩, hg⟩, hh⟩, hi⟩, hj⟩ := hsh
  subst he
  subst hh
  have hdm : ∀ {y : Char}, pyIsDigit y = true → (y == '-') = false :=
    fun hy => digit_ne_small hy (by decide)
  have hsl : ∀ {y : Char}, pyIsDigit y = true → (y == '/') = false :=
    fun hy => digit_ne_small hy (by decide)
  have hdo : ∀ {y : Char}, pyIsDigit y = true → (y == '.') = false :=
    fun hy => digit_ne_small hy (by decide)
  set r : List Char := [a, b, c, d, '-', f, g, '-', i, j] with hr
  have hmem : ∀ y ∈ r, pyIsDigit y = true ∨ y = '-' := by
    intro y hy
    rw [hr] at hy
    simp only [List.mem_cons, List.not_mem_nil, or_false] at hy
    rcases hy with rfl | rfl | rfl | rfl | rfl | rfl | rfl | rfl | rfl | rfl
    exacts [Or.inl ha, Or.inl hb, Or.inl hc, Or.inl hd, Or.inr rfl, Or.inl hf,
      Or.inl hg, Or.inr rfl, Or.inl hi, Or.inl hj]
  have hstrip : pyStrip r = r := by
    apply pyStrip_eq_self
    intro y hy
    rcases hmem y hy with hdig | rfl
    · exact digit_not_space hdig
    · decide
  have hsplit1 : splitOnChar '-' r = [[a, b, c, d], [f, g], [i, j]] := by
    rw [hr]
    simp [splitOnChar, hdm ha, hdm hb, hdm hc, hdm hd, hdm hf, hdm hg, hdm hi, hdm hj]
  have hnosl : splitOnChar '/' r = [r] := by
    apply splitOnChar_no_sep
    intro y hy
    rcases hmem y hy with hdig | rfl
    · exact hsl hdig
    · decide
  have hnodo : splitOnChar '.' r = [r] := by
    apply splitOnChar_no_sep
    intro y hy
    rcases hmem y hy with hdig | rfl
    · exact hdo hdig
    · decide
  have hfmt2 : tryFormat '/' true false r = none := by
    rw [tryFormat, hnosl]
  have hfmt4 : tryFormat '.' true false r = none := by
    rw [tryFormat, hnodo]
  have hfmt5 : tryFormat '/' true true r = none := by
    rw [tryFormat, hnosl]
  have hfmt3 : tryFormat '-' true false r = none := by
    rw [tryFormat, hsplit1]
    simp [yearOk4]
  have hfmt6 : tryFormat '-' true true r = none := by
    rw [tryFormat, hsplit1]
    simp [dayOk]
  have hsearch : searchYMD r = some r := by
    rw [hr]
    simp only [searchYMD, List.take]
    rw [if_pos]
    simp [shapeYMD, ha, hb, hc, hd, hf, hg, hi, hj]
  unfold normalizeDateChars
  rw [hstrip]
  have hne : r.isEmpty = false := by rw [hr]; rfl
  simp only [hne, Bool.false_eq_true, if_false]
  unfold tryAllFormats
  by_cases hok : (yearOk4 [a, b, c, d] && monthOk [f, g] && dayOk [i, j]) = true
  · by_cases hv : validDate (natOfDigits [a, b, c, d]) (natOfDigits [f, g])
        (natOfDigits [i, j]) = true
    · have hfmt1 : tryFormat '-' false false r =
          some ⟨natOfDigits [a, b, c, d], natOfDigits [f, g], natOfDigits [i, j]⟩ := by
        rw [tryFormat, hsplit1]
        simp only [if_false, Bool.false_eq_true, if_true, hok, hv]
      rw [hfmt1]
      simp only [Option.orElse]
      rw [show fmtYMD ⟨natOfDigits [a, b, c, d], natOfDigits [f, g], natOfDigits [i, j]⟩
          = r from by
        unfold fmtYMD
        rw [pad4_round ha hb hc hd, pad2_round hf hg, pad2_round hi hj]
        rw [hr]
        rfl]
    · have hfmt1 : tryFormat '-' false false r = none := by
        rw [tryFormat, hsplit1]
        simp only [hok, if_true, hv, Bool.false_eq_true, if_false]
      rw [hfmt1, hfmt2, hfmt3, hfmt4, hfmt5, hfmt6]
      simp only [Option.orElse]
      rw [hsearch]
  · have hfmt1 : tryFormat '-' false false r = none := by
      rw [tryFormat, hsplit1]
      simp only [hok, Bool.false_eq_true, if_false]
    rw [hfmt1, hfmt2, hfmt3, hfmt4, hfmt5, hfmt6]
    simp only [Option.orElse]
    rw [hsearch]

/-- C8: the date normalizer is idempotent on its own output: whenever
`normalize_date` returns a non-null result, feeding that result back in
returns it unchanged; and `normalize_date "01/02/2024" = "2024-02-01"`. -/
theorem C8_normalize_date_idempotent :
    (∀ s r : String, normalize_date s = some r → normalize_date r = some r)
    ∧ normalize_date "01/02/2024" = some "2024-02-01" := by
  constructor
  · intro s r h
    unfold normalize_date at h ⊢
    obtain ⟨rl, h1, h2⟩ := Option.map_eq_some'.mp h
    have hfix := shapeYMD_fixpoint (normDate_shape h1)
    rw [← h2]
    rw [show (String.mk rl).data = rl from rfl, hfix]
    rfl
  · decide

/-- C8 witness: the theorem applied at the concrete input
`"01/02/2024"`, whose normal form `"2024-02-01"` is a fixed point. -/
theorem C8_witness : normalize_date "2024-02-01" = some "2024-02-01" :=
  C8_normalize_date_idempotent.1 "01/02/2024" "2024-02-01" (by decide)

/-- C10: when no Document row exists for the requested id,
`process_document` returns failure with the `"Documento no
encontrado"` message and performs no writes: the returned state is the
input state, unchanged in every table. -/
theorem C10_missing_document (env : Env) (st : SState) (id : ℕ)
    (h : findDoc st.current id = none) :
    process_document env st id = some (st, false, "Documento no encontrado") := by
  unfold process_document
  rw [h]

/-- C10 witness: a store whose only document has id 5, queried for
id 99. -/
theorem C10_witness :
    process_document envGuess ⟨exampleDb, exampleDb⟩ 99
      = some (⟨exampleDb, exampleDb⟩, false, "Documento no encontrado") :=
  C10_missing_document envGuess ⟨exampleDb, exampleDb⟩ 99 (by decide)

/-- C4: a document whose status is already `processed` makes
`process_document` short-circuit before any work, returning success
with the `"Ya estaba procesado"` message and the state unchanged — in
particular no second FuelEntry or ExpenseEntry row is created for the
document. -/
theorem C4_already_processed (env : Env) (st : SState) (id : ℕ) (d : Doc)
    (h1 : findDoc st.current id = some d) (h2 : d.status = "processed") :
    process_document env st id = some (st, true, "Ya estaba procesado") := by
  unfold process_document
  rw [h1]
  simp [h2]

/-- C4 witness: reprocessing the already-processed fixture document. -/
theorem C4_witness :
    process_document envGuess ⟨processedDb, processedDb⟩ 5
      = some (⟨processedDb, processedDb⟩, true, "Ya estaba procesado") :=
  C4_already_processed envGuess ⟨processedDb, processedDb⟩ 5
    { exampleDoc with status := "processed" } (by decide) rfl

/-- C2 counterexample: a fuel-ticket document with `total = 0` (present
but zero) and no subtotal/tax.  The claim requires
`subtotal = total / 1.21 = 0`, but the code tests Python truthiness
(`if doc.total_amount`), a zero `Decimal` is falsy, and both subtotal
and tax are left null. -/
theorem C2_counterexample :
    (reconcile_taxes (some "fuel_ticket") none none (some 0)).1 = none
      ∧ (some ((0 : ℚ) / 1.21) : Option ℚ) ≠ none := by
  exact ⟨rfl, by simp⟩

/-- C2 (amended): for every fuel-ticket document whose reconciled
amounts have a nonzero total present and both subtotal and tax absent,
tax reconciliation sets `subtotal = total / 1.21` and
`tax = total - subtotal`; in particular `total = 121.00` yields
`subtotal = 100.00` and `tax = 21.00` exactly (well within the 0.01
tolerance). -/
theorem C2_fuel_tax_reconciliation :
    (∀ t : ℚ, t ≠ 0 →
      reconcile_taxes (some "fuel_ticket") none none (some t)
        = (some (t / 1.21), some (t - t / 1.21), some t))
    ∧ reconcile_taxes (some "fuel_ticket") none none (some 121)
        = (some 100, some 21, some 121) := by
  constructor
  · intro t ht
    simp [reconcile_taxes, ht]
  · simp only [reconcile_taxes]
    norm_num

/-- C2 witness: the general rule applied at the concrete total 121. -/
theorem C2_witness :
    reconcile_taxes (some "fuel_ticket") none none (some (121 : ℚ))
      = (some ((121 : ℚ) / 1.21), some (121 - 121 / 1.21), some 121) :=
  C2_fuel_tax_reconciliation.1 121 (by norm_num)

/-- C1: evaluation of the code at the claimed scenario.  With a
pre-selected vehicle `1234ABC` and an extraction guessing `5678XYZ`,
`validate_and_enrich` overwrites the guess with the supplied plate
(extraction_service line 139), so `process_document` keeps the document
bound to vehicle 1 and never creates a `5678XYZ` vehicle — the opposite
of the claim (and of the comment at document_processor lines 85-86,
which says the extracted plate must always win). -/
theorem C1_preselection_overrides_guess :
    (validate_and_enrich rawGuess (some "1234ABC")).vehicle_identifier_guess
        = some "1234ABC"
    ∧ (validate_and_enrich rawGuess (some "1234ABC")).vehicle_identifier_guess
        ≠ some "5678XYZ"
    ∧ (process_document envGuess ⟨exampleDb, exampleDb⟩ 5).map
        (fun r => (r.1.durable.vehicles.map Vehicle.plate,
                   (findDoc r.1.durable 5).map Doc.vehicle_id, r.2.1))
        = some (["1234ABC"], some (some 1), true) := by
  refine ⟨by decide, by decide, by decide⟩

/-- C5 counterexample: an insurance document processed while the
reminder commit fails.  `process_document` still reports success, but
the document does NOT end with status `processed`: its own writes were
uncommitted when `update_reminders_from_extraction` rolled the session
back, so it is still `pending` in the durable store. -/
theorem C5_counterexample :
    (process_document envInsuranceFail ⟨exampleDb, exampleDb⟩ 5).map
      (fun r => (r.2.1, (findDoc r.1.durable 5).map Doc.status))
      = some (true, some "pending") := by
  decide

/-- C5 (amended): if persisting the derived reminder fails, the failure
is caught and logged and `process_document` still returns success; but
because the document's own processing had not been committed yet, the
rollback discards it together with the reminder: the durable store is
left exactly as before the run (document still `pending`, no fuel or
expense entries), and the document can be reprocessed later.  First
part: whenever the reminder step created a new reminder and its commit
fails, the session is rolled back to the durable state.  Second part:
the end-to-end run on the insurance fixture returns success while
leaving both durable and current state untouched. -/
theorem C5_reminder_failure_contained :
    (∀ (st : SState) (doc : Doc) (ext : CExtract) (cur1 : DB) (rem : Reminder),
        create_reminder_from_document st.current doc ext = (cur1, some rem, false) →
        update_reminders_from_extraction st true doc ext = ⟨st.durable, st.durable⟩)
    ∧ (process_document envInsuranceFail ⟨exampleDb, exampleDb⟩ 5).map
        (fun r => (r.2.1, r.2.2, decide (r.1.durable = exampleDb),
                   decide (r.1.current = exampleDb)))
        = some (true, "Documento procesado correctamente", true, true) := by
  constructor
  · intro st doc ext cur1 rem h
    unfold update_reminders_from_extraction
    rw [h]
    rfl
  · decide

/-- C5 witness: the rollback lemma applied to the insurance fixture
(new reminder created, commit fails, session restored). -/
theorem C5_witness :
    update_reminders_from_extraction ⟨exampleDb, exampleDb⟩ true exampleDoc
      (extInsurance "2025-06-01") = ⟨exampleDb, exampleDb⟩ :=
  C5_reminder_failure_contained.1 ⟨exampleDb, exampleDb⟩ exampleDoc
    (extInsurance "2025-06-01")
    { exampleDb with reminders := [⟨1, "insurance", ⟨2025, 6, 1⟩, "active", some 5⟩] }
    ⟨1, "insurance", ⟨2025, 6, 1⟩, "active", some 5⟩ (by decide)

theorem filter_updateFirst {α : Type} (p q : α → Bool) (f : α → α)
    (hq : ∀ x, p x = true → q (f x) = q x) :
    ∀ l : List α, ((updateFirst p f l).filter q).length = (l.filter q).length := by
  intro l
  induction l with
  | nil => rfl
  | cons x xs ih =>
    by_cases hp : p x = true
    · simp only [updateFirst, hp, if_true]
      rw [List.filter_cons, List.filter_cons, hq x hp]
      cases q x <;> simp
    · simp only [updateFirst, hp, Bool.false_eq_true, if_false]
      rw [List.filter_cons, List.filter_cons]
      cases q x <;> simp [ih]

theorem find?_eq_none_of_filter_nil {α : Type} {p : α → Bool} {l : List α}
    (h : l.filter p = []) : l.find? p = none :=
  List.find?_eq_none.mpr (List.filter_eq_nil_iff.mp h)

theorem find?_append_none {α : Type} {p : α → Bool} {l₁ l₂ : List α}
    (h : l₁.find? p = none) : (l₁ ++ l₂).find? p = l₂.find? p := by
  induction l₁ with
  | nil => rfl
  | cons x xs ih =>
    have hall := List.find?_eq_none.mp h
    have hx : p x = false := by
      have := hall x (List.mem_cons_self _ _)
      simpa using this
    rw [List.cons_append, List.find?_cons_of_neg _ (by simp [hx])]
    exact ih (List.find?_eq_none.mpr (fun y hy => hall y (List.mem_cons_of_mem _ hy)))

theorem updateFirst_append_none {α : Type} {p : α → Bool} {f : α → α} {l₁ : List α}
    (l₂ : List α) (h : ∀ x ∈ l₁, p x = false) :
    updateFirst p f (l₁ ++ l₂) = l₁ ++ updateFirst p f l₂ := by
  induction l₁ with
  | nil => rfl
  | cons x xs ih =>
    rw [List.cons_append, updateFirst, if_neg (by simp [h x (List.mem_cons_self _ _)]),
      ih (fun y hy => h y (List.mem_cons_of_mem _ hy)), List.cons_append]

/-- C3: reminder deduplication.  First part: `create_reminder_from_document`
preserves the invariant of at most one active reminder row per
(vehicle, kind, source document) tuple.  Second part: upserting twice
for the same document with a changed due date (insurance fixture with
symbolic dates) leaves exactly one active matching row, updated in
place to the new due date. -/
theorem C3_reminder_upsert :
    (∀ (cur : DB) (doc : Doc) (ext : CExtract) (v : ℕ) (k : String) (d : ℕ),
        countActive cur v k d ≤ 1 →
        countActive (create_reminder_from_document cur doc ext).1 v k d ≤ 1)
    ∧ (∀ (cur : DB) (doc : Doc) (vid : ℕ) (s1 s2 : String) (due1 due2 : PyDate),
        doc.vehicle_id = some vid → vid ≠ 0 →
        s1 ≠ "" → parseDueStr s1 = some due1 →
        s2 ≠ "" → parseDueStr s2 = some due2 →
        due1 ≠ due2 →
        cur.reminders.filter (matchReminder vid "insurance" doc.id) = [] →
        ((create_reminder_from_document
            (create_reminder_from_document cur doc (extInsurance s1)).1 doc
            (extInsurance s2)).1).reminders.filter
          (matchReminder vid "insurance" doc.id)
          = [⟨vid, "insurance", due2, "active", some doc.id⟩]) := by
  constructor
  · intro cur doc ext v k d hle
    unfold create_reminder_from_document
    by_cases hguard : (!optStrTruthy (reminderDueStr doc ext)
        || !optNatTruthy doc.vehicle_id) = true
    · simp only [hguard, if_true]
      exact hle
    · rw [Bool.not_eq_true] at hguard
      simp only [hguard, Bool.false_eq_true, if_false]
      cases hk : reminderKindMap (reminderDocType doc ext) with
      | none => exact hle
      | some kind =>
        cases hp : parseDueStr ((reminderDueStr doc ext).getD "") with
        | none => exact hle
        | some due =>
          cases hf : cur.reminders.find?
              (matchReminder (doc.vehicle_id.getD 0) kind doc.id) with
          | some existing =>
            simp only [hf]
            by_cases hdue : existing.due_date ≠ due
            · rw [if_pos hdue]
              show ((updateFirst (matchReminder (doc.vehicle_id.getD 0) kind doc.id)
                  (fun r => { r with due_date := due }) cur.reminders).filter
                    (matchReminder v k d)).length ≤ 1
              rw [filter_updateFirst (matchReminder (doc.vehicle_id.getD 0) kind doc.id)
                (matchReminder v k d) (fun r => { r with due_date := due })
                (fun x _ => rfl)]
              exact hle
            · rw [if_neg hdue]
              exact hle
          | none =>
            simp only [hf]
            show ((cur.reminders ++
                [(⟨doc.vehicle_id.getD 0, kind, due, "active", some doc.id⟩ : Reminder)]).filter
                  (matchReminder v k d)).length ≤ 1
            rw [List.filter_append, List.length_append]
            by_cases hm : matchReminder v k d
                ⟨doc.vehicle_id.getD 0, kind, due, "active", some doc.id⟩ = true
            · have hmv : (doc.vehicle_id.getD 0 == v && kind == k
                  && (some doc.id == some d : Bool) && ("active" == "active" : Bool))
                  = true := hm
              simp only [Bool.and_eq_true, beq_iff_eq, Option.some_inj] at hmv
              obtain ⟨⟨⟨h1, h2⟩, h3⟩, -⟩ := hmv
              have hfilter0 : cur.reminders.filter (matchReminder v k d) = [] := by
                apply List.filter_eq_nil_iff.mpr
                intro x hx
                rw [← h1, ← h2, ← h3]
                exact List.find?_eq_none.mp hf x hx
              rw [hfilter0]
              simp [hm]
            · simp only [List.filter_cons, hm, Bool.false_eq_true, if_false,
                List.filter_nil, List.length_nil, Nat.add_zero]
              exact hle
  · intro cur doc vid s1 s2 due1 due2 hvid hvid0 hs1 hp1 hs2 hp2 hne hfilter
    have htr1 : optStrTruthy (some s1) = true := by simp [optStrTruthy, hs1]
    have htr2 : optStrTruthy (some s2) = true := by simp [optStrTruthy, hs2]
    have hds1 : reminderDueStr doc (extInsurance s1) = some s1 := by
      simp [reminderDueStr, extInsurance, htr1]
    have hds2 : reminderDueStr doc (extInsurance s2) = some s2 := by
      simp [reminderDueStr, extInsurance, htr2]
    have hvtr : optNatTruthy doc.vehicle_id = true := by
      simp [hvid, optNatTruthy, hvid0]
    have hfind1 : cur.reminders.find? (matchReminder vid "insurance" doc.id) = none :=
      find?_eq_none_of_filter_nil hfilter
    have hallfalse : ∀ x ∈ cur.reminders,
        matchReminder vid "insurance" doc.id x = false := by
      intro x hx
      have := List.find?_eq_none.mp hfind1 x hx
      simpa using this
    have hgetd : doc.vehicle_id.getD 0 = vid := by rw [hvid]; rfl
    have hPr1 : matchReminder vid "insurance" doc.id
        ⟨vid, "insurance", due1, "active", some doc.id⟩ = true := by
      simp [matchReminder]
    have h1 : create_reminder_from_document cur doc (extInsurance s1)
        = ({ cur with reminders := cur.reminders ++
              [⟨vid, "insurance", due1, "active", some doc.id⟩] },
           some ⟨vid, "insurance", due1, "active", some doc.id⟩, false) := by
      unfold create_reminder_from_document
      rw [hds1]
      simp only [htr1, hvtr, Bool.not_true, Bool.or_self, Bool.false_eq_true, if_false,
        show reminderDocType doc (extInsurance s1) = "insurance_policy" from rfl,
        show reminderKindMap "insurance_policy" = some "insurance" from rfl,
        show (some s1).getD "" = s1 from rfl, hp1, hgetd, hfind1]
    have hfind2 : (cur.reminders ++
          [(⟨vid, "insurance", due1, "active", some doc.id⟩ : Reminder)]).find?
            (matchReminder vid "insurance" doc.id)
        = some ⟨vid, "insurance", due1, "active", some doc.id⟩ := by
      rw [find?_append_none hfind1]
      rw [List.find?_cons_of_pos _ hPr1]
    rw [h1]
    unfold create_reminder_from_document
    rw [hds2]
    simp only [htr2, hvtr, Bool.not_true, Bool.or_self, Bool.false_eq_true, if_false,
      show reminderDocType doc (extInsurance s2) = "insurance_policy" from rfl,
      show reminderKindMap "insurance_policy" = some "insurance" from rfl,
      show (some s2).getD "" = s2 from rfl, hp2, hgetd, hfind2, ne_eq]
    rw [if_pos (show ¬ (⟨vid, "insurance", due1, "active", some doc.id⟩ : Reminder).due_date
        = due2 from hne)]
    show (updateFirst (matchReminder vid "insurance" doc.id)
        (fun r => { r with due_date := due2 })
        (cur.reminders ++ [⟨vid, "insurance", due1, "active", some doc.id⟩])).filter
          (matchReminder vid "insurance" doc.id)
      = [⟨vid, "insurance", due2, "active", some doc.id⟩]
    rw [updateFirst_append_none _ hallfalse]
    rw [show updateFirst (matchReminder vid "insurance" doc.id)
        (fun r => { r with due_date := due2 })
        [⟨vid, "insurance", due1, "active", some doc.id⟩]
        = [⟨vid, "insurance", due2, "active", some doc.id⟩] from by
      simp [updateFirst, hPr1]]
    rw [List.filter_append, hfilter]
    simp [matchReminder]

/-- C3 witness: both parts applied to the insurance fixture, upserting
first with due date 2025-06-01 and then with 2025-09-01. -/
theorem C3_witness :
    countActive (create_reminder_from_document exampleDb exampleDoc
        (extInsurance "2025-06-01")).1 1 "insurance" 5 ≤ 1
    ∧ ((create_reminder_from_document
          (create_reminder_from_document exampleDb exampleDoc
            (extInsurance "2025-06-01")).1 exampleDoc
          (extInsurance "2025-09-01")).1).reminders.filter
        (matchReminder 1 "insurance" exampleDoc.id)
        = [⟨1, "insurance", ⟨2025, 9, 1⟩, "active", some 5⟩] :=
  ⟨C3_reminder_upsert.1 exampleDb exampleDoc (extInsurance "2025-06-01") 1 "insurance" 5
      (by decide),
   C3_reminder_upsert.2 exampleDb exampleDoc 1 "2025-06-01" "2025-09-01"
      ⟨2025, 6, 1⟩ ⟨2025, 9, 1⟩ (by decide) (by decide) (by decide) (by decide)
      (by decide) (by decide) (by decide) (by decide)⟩

theorem set_getElem?_self {α : Type} (l : List α) (i : ℕ) (a : α)
    (h : l[i]? = some a) : l.set i a = l := by
  induction l generalizing i with
  | nil => simp at h
  | cons x xs ih =>
    cases i with
    | zero =>
      simp only [List.getElem?_cons_zero, Option.some_inj] at h
      rw [← h]
      rfl
    | succ n =>
      simp only [List.getElem?_cons_succ] at h
      rw [List.set_cons_succ, ih n h]

theorem lastNullKmIdx_spec {l : List FuelEntry} {vid i : ℕ}
    (h : lastNullKmIdx l vid = some i) :
    ∃ e, l[i]? = some e ∧ e.kilometers = none ∧ e.vehicle_id = vid := by
  have hmem : i ∈ (List.range l.length).filter (fun i =>
      match l[i]? with
      | some e => e.vehicle_id == vid && decide (e.kilometers = none)
      | none => false) := List.argmax_mem (show _ from h)
  have hpred := (List.mem_filter.mp hmem).2
  cases he : l[i]? with
  | none => rw [he] at hpred; exact absurd hpred (by simp)
  | some e =>
    rw [he] at hpred
    simp only [Bool.and_eq_true, beq_iff_eq, decide_eq_true_eq] at hpred
    exact ⟨e, rfl, hpred.2, hpred.1⟩

/-- C9: from the AwaitingOdometer state (`pending_action =
"waiting_km"`), an explicit skip event moves the session to Idle —
pending action, pending vehicle and pending file bindings all cleared —
while the fuel-entry table is left completely unchanged: the targeted
entry had a null odometer and is written back with a null odometer, and
no other row or field is touched.  Vehicles, documents and the current
vehicle binding are also unchanged. -/
theorem C9_awaiting_odometer_skip (st : TgState) (t : String)
    (hpend : st.session.pending_action = some "waiting_km")
    (hskip : pyLowerStr (textCleanOf t) = "skip") :
    (handle_text_message st t).session.pending_action = none
    ∧ (handle_text_message st t).session.pending_vehicle_id = none
    ∧ (handle_text_message st t).session.pending_file_id = none
    ∧ (handle_text_message st t).session.pending_file_path = none
    ∧ (handle_text_message st t).db.fuel_entries = st.db.fuel_entries
    ∧ (handle_text_message st t).db = st.db
    ∧ (handle_text_message st t).session.current_vehicle_id
        = st.session.current_vehicle_id := by
  have hmain : handle_text_message st t = clear_pending_state st := by
    simp only [handle_text_message]
    rw [if_pos hpend, if_pos (Or.inl hskip)]
    dsimp only
    cases hv : st.session.pending_vehicle_id with
    | none => rfl
    | some vid =>
      dsimp only
      cases hidx : lastNullKmIdx st.db.fuel_entries vid with
      | none => rfl
      | some i =>
        dsimp only
        obtain ⟨e, he, hkm, -⟩ := lastNullKmIdx_spec hidx
        have hset : setFuelKm st.db.fuel_entries i none = st.db.fuel_entries := by
          unfold setFuelKm
          rw [he]
          dsimp only
          have : ({ e with kilometers := none } : FuelEntry) = e := by
            cases e
            simp only at hkm
            rw [hkm]
          rw [this, set_getElem?_self _ _ _ he]
        rw [hset]
  rw [hmain]
  cases st with
  | mk sess db =>
    cases sess
    exact ⟨rfl, rfl, rfl, rfl, rfl, rfl, rfl⟩

/-- C9 witness: the fixture session awaiting an odometer for vehicle 1
with one odometer-less fuel entry, receiving the literal text
`"skip"`. -/
theorem C9_witness :
    (handle_text_message exampleTgState "skip").session.pending_action = none
    ∧ (handle_text_message exampleTgState "skip").session.pending_vehicle_id = none
    ∧ (handle_text_message exampleTgState "skip").session.pending_file_id = none
    ∧ (handle_text_message exampleTgState "skip").session.pending_file_path = none
    ∧ (handle_text_message exampleTgState "skip").db.fuel_entries
        = exampleTgState.db.fuel_entries
    ∧ (handle_text_message exampleTgState "skip").db = exampleTgState.db
    ∧ (handle_text_message exampleTgState "skip").session.current_vehicle_id
        = exampleTgState.session.current_vehicle_id :=
  C9_awaiting_odometer_skip exampleTgState "skip" rfl (by decide)

/-- C6 counterexample: on input `"......"` the cleaned result has 6
characters, none of them alphanumeric, yet `normalize_plate` returns it
unchanged instead of the `null` the claim requires for a cleaned result
that does not consist of alphanumeric characters. -/
theorem C6_counterexample :
    normalize_plate "......" = some "......"
      ∧ "......".data.all pyIsAlnum = false := by
  decide

/-- C6 (amended): for every input, `normalize_plate` uppercases, strips
boundary whitespace and internal spaces, and returns `null` unless the
cleaned result has at least 6 characters (alphanumeric or not); it is a
total function, and `normalize_plate " 1234 ABC " = "1234ABC"`. -/
theorem C6_normalize_plate :
    (∀ s : String, normalize_plate s =
      if 6 ≤ (plateClean s).length then some (String.mk (plateClean s)) else none)
    ∧ normalize_plate " 1234 ABC " = some "1234ABC" := by
  constructor
  · intro s
    by_cases h : s = ""
    · subst h; decide
    · simp [normalize_plate, h]
  · decide

end Iara
